import Mathlib

/-!
Shallow embedding of the particle-groups simulation core (`ParticleGroup.ts`):
the particle/group data model, the pairwise force kernel `interactParticle`,
the group interaction sweep `interactGroup`, the boundary `constraint`, the
top-level `step`, and the registry operations `addGroup` / `removeGroup`
together with the derived metric `computationsPerFrame`.

Numbers are modelled by the real numbers; JS `Number.EPSILON` is `2 ^ (-52)`
and JS `dSq ** .5` on the nonnegative squared distance is `Real.sqrt dSq`.
Arrays become lists; in-place mutation becomes explicit state passing.  The
source's `group1 === group2` aliasing in `interactGroup` (a group interacting
with itself reads the already-updated particles of earlier loop iterations)
is modelled by threading the current particle list and a `same` flag.
-/

namespace ParticleGroups

/-- JS `Number.EPSILON = 2⁻⁵²`, added to the squared distance and to the
distance inside the force kernel. -/
noncomputable def numberEpsilon : ℝ := 1 / 2 ^ 52

/-- A particle: position, velocity, acceleration (source fields
`x, y, vx, vy, ax, ay`). -/
structure Particle where
  x : ℝ
  y : ℝ
  vx : ℝ
  vy : ℝ
  ax : ℝ
  ay : ℝ

/-- A particle group.  The rendering-only fields of the source record
(`hsl`, `colorStr`) are omitted; the simulation core never reads them. -/
structure Group where
  items : List Particle
  count : ℕ
  forces : List ℝ
  ranges : List ℝ
  particleRadius : ℝ
  isRunning : Bool

/-- The distance computed by the force kernel:
`sqrt(dx² + dy² + EPSILON) + EPSILON` (source lines computing `dSq` and
`distance`). -/
noncomputable def particleDistance (a b : Particle) : ℝ :=
  Real.sqrt ((a.x - b.x) ^ 2 + (a.y - b.y) ^ 2 + numberEpsilon) + numberEpsilon

/-- The force kernel `interactParticle(a, b, f, maxDistance, particleRadius)`.
Within `particleRadius` a fixed `F = -6/distance` applies regardless of `f`;
within `maxDistance` the configured `F = f/distance` applies; otherwise `a`
is returned unchanged.  The update is `a.ax -= F*dx; a.ay -= F*dy`. -/
noncomputable def interactParticle (a b : Particle) (f maxDistance particleRadius : ℝ) :
    Particle :=
  let dx := a.x - b.x
  let dy := a.y - b.y
  let distance := particleDistance a b
  if distance < particleRadius then
    let F := -6 / distance
    { a with ax := a.ax - F * dx, ay := a.ay - F * dy }
  else if distance < maxDistance then
    let F := f / distance
    { a with ax := a.ax - F * dx, ay := a.ay - F * dy }
  else a

/-- The boundary `constraint(particle, r, width, height)`: clamp `x` into
`[r, width - r]` and `y` into `[r, height - r]`, negating the corresponding
velocity component on a clamp (an `else if` per axis, axes independent). -/
noncomputable def constraint (particle : Particle) (r width height : ℝ) : Particle :=
  let p1 :=
    if particle.x < r then { particle with x := r, vx := particle.vx * -1 }
    else if particle.x > width - r then
      { particle with x := width - r, vx := particle.vx * -1 }
    else particle
  if p1.y < r then { p1 with y := r, vy := p1.vy * -1 }
  else if p1.y > height - r then { p1 with y := height - r, vy := p1.vy * -1 }
  else p1

/-- The inner loop of `interactGroup` for one target particle: reset `ax, ay`
to 0, then fold the force kernel over the source particles. -/
noncomputable def sweepParticle (a : Particle) (bs : List Particle)
    (f maxDistance particleRadius : ℝ) : Particle :=
  bs.foldl (fun acc b => interactParticle acc b f maxDistance particleRadius)
    { a with ax := 0, ay := 0 }

/-- The integration tail of `interactGroup` for one target particle:
`vx += dt*ax; vy += dt*ay; vx *= dampening; vy *= dampening; x += vx;
y += vy;` followed by the boundary constraint. -/
noncomputable def integrate (a : Particle) (dt dampening r width height : ℝ) : Particle :=
  let vx := (a.vx + dt * a.ax) * dampening
  let vy := (a.vy + dt * a.ay) * dampening
  constraint { a with vx := vx, vy := vy, x := a.x + vx, y := a.y + vy } r width height

/-- One iteration of `interactGroup`'s outer loop: process target particle
index `k` of the current list.  When `same` is true the source list is the
current (partially updated) target list, mirroring `group1 === group2`
aliasing; all reads of the processed particle happen before its write-back,
exactly as in the source where only `a.ax, a.ay` mutate during the inner
loop and `b` is only read through `b.x, b.y`. -/
noncomputable def interactStep (f maxDistance particleRadius dt width height dampening : ℝ)
    (same : Bool) (srcItems : List Particle) (cur : List Particle) (k : ℕ) : List Particle :=
  match cur.get? k with
  | none => cur
  | some a =>
    let bs := if same then cur else srcItems
    cur.set k (integrate (sweepParticle a bs f maxDistance particleRadius)
      dt dampening particleRadius width height)

/-- The sweep `interactGroup(group1, group2, f, maxDistance, dt, width,
height, dampening)` at the level of the two particle lists: each target particle in
order undergoes reset, kernel sweep over the source particles, integration
and the boundary constraint, with `group1.particleRadius` used for both the
hard-core threshold and the constraint. -/
noncomputable def interactGroup (items1 srcItems : List Particle) (same : Bool)
    (f maxDistance particleRadius dt width height dampening : ℝ) : List Particle :=
  (List.range items1.length).foldl
    (interactStep f maxDistance particleRadius dt width height dampening same srcItems) items1

/-- The body of `step`'s inner loop over source index `j` for target index
`i`: skip when `groups[i].forces[j] === 0`, otherwise run `interactGroup`
with `groups[i].forces[j]` and `groups[i].ranges[j]` and store the updated
target items back at index `i`. -/
noncomputable def stepInner (dt width height dampening : ℝ) (i : ℕ)
    (gs : List Group) (j : ℕ) : List Group :=
  match gs.get? i, gs.get? j with
  | some gi, some gj =>
    if gi.forces.get? j = some 0 then gs
    else
      gs.set i { gi with
        items := interactGroup gi.items gj.items (i == j) (gi.forces.getD j 0)
          (gi.ranges.getD j 0) gi.particleRadius dt width height dampening }
  | _, _ => gs

/-- The body of `step`'s outer loop over target index `i`: skip the whole
inner loop when `groups[i]` is not running, otherwise run the inner loop
over all source indices (`len` is the group count, captured once). -/
noncomputable def stepOuter (dt width height dampening : ℝ) (len : ℕ)
    (gs : List Group) (i : ℕ) : List Group :=
  match gs.get? i with
  | some gi =>
    if gi.isRunning then
      (List.range len).foldl (stepInner dt width height dampening i) gs
    else gs
  | none => gs

/-- The method `ParticleGroup.step(groups, dt)`: for each target group index `i`
(skipped entirely when not running), for each source index `j` (skipped
when the force entry is 0), run the group interaction, threading the
mutated registry state. -/
noncomputable def step (groups : List Group) (dt width height dampening : ℝ) : List Group :=
  (List.range groups.length).foldl
    (stepOuter dt width height dampening groups.length) groups

/-- The validation error thrown by `addGroup` (`Particle too big, r < radius`),
carrying the offending range entry and the candidate's particle radius. -/
structure AddError where
  offendingRange : ℝ
  radius : ℝ

/-- The JS test `group.ranges[i] < group.particleRadius` of `addGroup`:
an out-of-bounds read yields `undefined`, and `undefined < radius` is
false, so only a present entry can fail. -/
noncomputable def rangeTooSmall (cand : Group) (i : ℕ) : Bool :=
  match cand.ranges.get? i with
  | some ri => decide (ri < cand.particleRadius)
  | none => false

/-- The loop of `addGroup` over the existing groups (index `i` counts from
0): validate the candidate's entry for group `i`, then immediately push the
candidate's force/range entries onto group `i`'s tables.  A thrown error is
modelled as `Except.error` carrying the registry as the throw leaves it:
groups before the offending index keep their freshly pushed entries. -/
noncomputable def addGroupGo (cand : Group) : ℕ → List Group →
    Except (AddError × List Group) (List Group)
  | _, [] => Except.ok []
  | i, g :: rest =>
    if rangeTooSmall cand i then
      Except.error (⟨cand.ranges.getD i 0, cand.particleRadius⟩, g :: rest)
    else
      match addGroupGo cand (i + 1) rest with
      | Except.ok rest' =>
        Except.ok ({ g with forces := g.forces ++ [cand.forces.getD i 0],
                            ranges := g.ranges ++ [cand.ranges.getD i 0] } :: rest')
      | Except.error (e, rest') =>
        Except.error (e, { g with forces := g.forces ++ [cand.forces.getD i 0],
                                  ranges := g.ranges ++ [cand.ranges.getD i 0] } :: rest')

/-- The method `ParticleGroup.addGroup(group)`: run the validate-and-push loop over the
existing groups, then append the candidate to the registry.  The particle
reconciliation (`updateParticleCount`, randomized positions) and the image
regeneration touch no force/range table and are omitted. -/
noncomputable def addGroup (gs : List Group) (cand : Group) :
    Except (AddError × List Group) (List Group) :=
  match addGroupGo cand 0 gs with
  | Except.ok gs' => Except.ok (gs' ++ [cand])
  | Except.error e => Except.error e

/-- The method `ParticleGroup.removeGroup(group)` with the registry index `i`
(the source computes `i` by identity `findIndex`): remove index `i` from
the registry, then splice index `i` out of every remaining group's range
and force tables.  Clearing the removed group's own `items` does not affect
the registry. -/
def removeGroup (gs : List Group) (i : ℕ) : List Group :=
  (gs.eraseIdx i).map fun g =>
    { g with ranges := g.ranges.eraseIdx i, forces := g.forces.eraseIdx i }

/-- The derived metric `computationsPerFrame`: fold over all ordered pairs
`(i, j)`, skipping `!groups[i].isRunning || groups[i].forces[j] === 0`, and
accumulate `groups[i].items.length * groups[j].items.length`. -/
noncomputable def computationsPerFrame (gs : List Group) : ℕ :=
  (List.range gs.length).foldl (fun k i =>
    (List.range gs.length).foldl (fun kk j =>
      match gs.get? i, gs.get? j with
      | some gi, some gj =>
        if ¬ gi.isRunning ∨ gi.forces.get? j = some 0 then kk
        else kk + gi.items.length * gj.items.length
      | _, _ => kk) k) 0

/-- Cost of the ordered pair `(i, j)` as the spec describes it: the product
of the particle counts when group `i` is running and its force entry for
`j` is non-zero, else 0. -/
noncomputable def pairCost (gs : List Group) (i j : ℕ) : ℕ :=
  match gs.get? i, gs.get? j with
  | some gi, some gj =>
    if gi.isRunning ∧ ¬ gi.forces.get? j = some 0 then
      gi.items.length * gj.items.length
    else 0
  | _, _ => 0

/-- Spec-side reading of `computationsPerFrame`: the sum, over all ordered
group pairs `(i, j)` with group `i` running and a non-zero force entry for
`j`, of the product of the two particle counts. -/
noncomputable def computationsPerFrameSpec (gs : List Group) : ℕ :=
  ((List.range gs.length).map fun i =>
    ((List.range gs.length).map fun j => pairCost gs i j).sum).sum

/-- Spec-side variant of `step` for the skip-equivalence claim: never skip a
zero-force pair; instead always invoke the group interaction with the force
read from the table (which is 0 for those pairs). -/
noncomputable def stepNoSkip (groups : List Group) (dt width height dampening : ℝ) :
    List Group :=
  (List.range groups.length).foldl (fun gs i =>
    match gs.get? i with
    | some gi =>
      if gi.isRunning then
        (List.range groups.length).foldl (fun gs' j =>
          match gs'.get? i, gs'.get? j with
          | some gi', some gj =>
            gs'.set i { gi' with
              items := interactGroup gi'.items gj.items (i == j) (gi'.forces.getD j 0)
                (gi'.ranges.getD j 0) gi'.particleRadius dt width height dampening }
          | _, _ => gs') gs
      else gs
    | none => gs) groups

/-- Accumulation pass of the claim-side step variant: reset the particle's
acceleration once, then accumulate kernel contributions from every source
group with a non-zero force entry (taken at frame-start state). -/
noncomputable def gatherAll (gs : List Group) (gi : Group) (a : Particle) : Particle :=
  (List.range gs.length).foldl (fun acc j =>
    match gs.get? j with
    | some gj =>
      if gi.forces.get? j = some 0 then acc
      else gj.items.foldl (fun acc2 b =>
        interactParticle acc2 b (gi.forces.getD j 0) (gi.ranges.getD j 0)
          gi.particleRadius) acc
    | none => acc) { a with ax := 0, ay := 0 }

/-- Claim-side variant of `step` for the reset-once claim: each particle of
each running target group has its acceleration reset to zero exactly once
per frame, accumulates contributions from every interacting source group,
and only then is integrated and constrained, once. -/
noncomputable def stepResetOnce (gs : List Group) (dt width height dampening : ℝ) :
    List Group :=
  gs.map fun gi =>
    if gi.isRunning then
      { gi with items := gi.items.map fun a =>
          integrate (gatherAll gs gi a) dt dampening gi.particleRadius width height }
    else gi

/-- The table-alignment invariant: every group's force table and range table
have length equal to the number of groups in the registry. -/
def alignedTables (gs : List Group) : Prop :=
  ∀ g ∈ gs, g.forces.length = gs.length ∧ g.ranges.length = gs.length

/-- First group of the three-group removal scenario. -/
def c9g0 : Group := ⟨[], 0, [1, 2, 3], [10, 20, 30], 4, true⟩

/-- Second group of the three-group removal scenario (the one removed). -/
def c9g1 : Group := ⟨[], 0, [4, 5, 6], [40, 50, 60], 5, true⟩

/-- Third group of the three-group removal scenario. -/
def c9g2 : Group := ⟨[], 0, [7, 8, 9], [70, 80, 90], 6, true⟩

/-- Existing group 0 for the failing `addGroup` scenario. -/
def c1g0 : Group := ⟨[], 0, [3], [6], 1, true⟩

/-- Existing group 1 for the failing `addGroup` scenario. -/
def c1g1 : Group := ⟨[], 0, [4], [7], 1, true⟩

/-- Candidate whose range entry for group 1 is below its own particle
radius (2 < 4), while its entry for group 0 passes (9 ≥ 4). -/
def c1cand : Group := ⟨[], 0, [11, 12], [9, 2], 4, true⟩

/-- Existing group 0 for the alignment-breaking `addGroup` scenario. -/
def c5g0 : Group := ⟨[], 0, [1, 2], [4, 5], 1, true⟩

/-- Existing group 1 for the alignment-breaking `addGroup` scenario. -/
def c5g1 : Group := ⟨[], 0, [6, 7], [8, 9], 1, true⟩

/-- Candidate with 3-length tables failing validation at index 1
(1 < 3) after passing at index 0 (5 ≥ 3). -/
def c5cand : Group := ⟨[], 0, [10, 11, 12], [5, 1, 9], 3, true⟩

/-- Existing registry for the successful `addGroup` scenario. -/
def c5w0 : Group := ⟨[], 0, [1], [2], 1, true⟩

/-- Candidate with 2-length tables passing validation (5 ≥ 3). -/
def c5wcand : Group := ⟨[], 0, [7, 8], [5, 9], 3, true⟩

/-- Running target group with one particle at (10, 10) with `vx = 1`,
zero self-force and non-zero force entries toward the two other groups;
its range toward the third group is 1 (equal to its particle radius). -/
def c2A : Group := ⟨[⟨10, 10, 1, 0, 0, 0⟩], 1, [0, 1, 1], [50, 50, 1], 1, true⟩

/-- Paused source group with one particle coincident with `c2A`'s. -/
def c2B : Group := ⟨[⟨10, 10, 0, 0, 0, 0⟩], 1, [0, 0, 0], [50, 50, 50], 1, false⟩

/-- Paused source group with one particle far away at (90, 10). -/
def c2C : Group := ⟨[⟨90, 10, 0, 0, 0, 0⟩], 1, [0, 0, 0], [50, 50, 50], 1, false⟩

/-- State of `c2A` after its interaction with `c2B`: one partial integration has
halved the velocity and moved the particle. -/
noncomputable def c2A1 : Group := ⟨[⟨21 / 2, 10, 1 / 2, 0, 0, 0⟩], 1, [0, 1, 1], [50, 50, 1], 1, true⟩

/-- State of `c2A` after its interactions with `c2B` and `c2C`: two partial
integrations have halved the velocity twice. -/
noncomputable def c2A2 : Group := ⟨[⟨43 / 4, 10, 1 / 4, 0, 0, 0⟩], 1, [0, 1, 1], [50, 50, 1], 1, true⟩

/-- A single running group with one moving particle and a zero self-force
entry. -/
def c3G : Group := ⟨[⟨10, 10, 1, 0, 0, 0⟩], 1, [0], [50], 1, true⟩

theorem particleDistance_pos (a b : Particle) : 0 < particleDistance a b := by
  unfold particleDistance numberEpsilon
  positivity

theorem particleDistance_coincident (a b : Particle) (hx : a.x = b.x) (hy : a.y = b.y) :
    particleDistance a b = 1 / 2 ^ 26 + 1 / 2 ^ 52 := by
  unfold particleDistance numberEpsilon
  simp only [hx, hy, sub_self]
  have hs : ((0 : ℝ) ^ 2 + 0 ^ 2 + 1 / 2 ^ 52) = (1 / 2 ^ 26 : ℝ) ^ 2 := by norm_num
  rw [hs, Real.sqrt_sq (by norm_num)]

theorem one_le_particleDistance (a b : Particle)
    (h : 1 ≤ (a.x - b.x) ^ 2 + (a.y - b.y) ^ 2) : 1 ≤ particleDistance a b := by
  unfold particleDistance
  have he : (0 : ℝ) < numberEpsilon := by unfold numberEpsilon; norm_num
  have h1 : 1 ≤ Real.sqrt ((a.x - b.x) ^ 2 + (a.y - b.y) ^ 2 + numberEpsilon) :=
    Real.one_le_sqrt.mpr (by linarith)
  linarith

theorem interactParticle_coincident (a b : Particle) (f m r : ℝ)
    (hx : a.x = b.x) (hy : a.y = b.y) : interactParticle a b f m r = a := by
  have hdx : a.x - b.x = 0 := by rw [hx, sub_self]
  have hdy : a.y - b.y = 0 := by rw [hy, sub_self]
  simp only [interactParticle]
  split_ifs <;> simp [hdx, hdy]

theorem interactParticle_outOfRange (a b : Particle) (f m r : ℝ)
    (hr : r ≤ particleDistance a b) (hm : m ≤ particleDistance a b) :
    interactParticle a b f m r = a := by
  simp only [interactParticle]
  split_ifs with h1 h2
  · exact absurd h1 (not_lt.mpr hr)
  · exact absurd h2 (not_lt.mpr hm)
  · rfl

theorem interactParticle_zero (a b : Particle) (m r : ℝ)
    (hr : r ≤ particleDistance a b) : interactParticle a b 0 m r = a := by
  simp only [interactParticle]
  split_ifs with h1 h2
  · exact absurd h1 (not_lt.mpr hr)
  · simp
  · rfl

/-- Claim C6: whenever the computed distance `sqrt(dx² + dy² + ε) + ε` is
below the target's `particleRadius`, the kernel adds the vector
`(6/distance) · (dx, dy)` (directed from `b` toward `a`) to `a`'s
acceleration, for every value of the configured force `f`. -/
theorem interactParticle_hardcore (a b : Particle) (f maxDistance particleRadius : ℝ)
    (h : particleDistance a b < particleRadius) :
    interactParticle a b f maxDistance particleRadius =
      { a with ax := a.ax + 6 / particleDistance a b * (a.x - b.x),
               ay := a.ay + 6 / particleDistance a b * (a.y - b.y) } := by
  simp only [interactParticle]
  rw [if_pos h]
  simp only [Particle.mk.injEq]
  refine ⟨trivial, trivial, trivial, trivial, by ring, by ring⟩

/-- Claim C7: at distance at least `particleRadius`, the kernel subtracts
`(f/distance)·dx` from `a.ax` and `(f/distance)·dy` from `a.ay` when the
distance is below `maxDistance`, and leaves `a` entirely unchanged when the
distance is at least `maxDistance`. -/
theorem interactParticle_in_range (a b : Particle) (f maxDistance particleRadius : ℝ)
    (h : particleRadius ≤ particleDistance a b) :
    interactParticle a b f maxDistance particleRadius =
      (if particleDistance a b < maxDistance then
        { a with ax := a.ax - f / particleDistance a b * (a.x - b.x),
                 ay := a.ay - f / particleDistance a b * (a.y - b.y) }
      else a) := by
  simp only [interactParticle]
  rw [if_neg (not_lt.mpr h)]

/-- Claim C3 (amended): the force kernel with `f = 0` contributes zero
acceleration to the target particle whenever every source particle is at
computed distance at least the hard-core radius, so the whole sweep leaves
the particle with its acceleration reset to zero and nothing else changed.
(The unskipped group interaction is still not state-identical to the skip
path, because it also integrates, dampens and constrains — see the
counterexample.) -/
theorem sweepParticle_zero_force (a : Particle) (bs : List Particle) (m r : ℝ)
    (h : ∀ b ∈ bs, r ≤ particleDistance a b) :
    sweepParticle a bs 0 m r = { a with ax := 0, ay := 0 } := by
  unfold sweepParticle
  have key : ∀ (l : List Particle) (c : Particle), (∀ b ∈ l, r ≤ particleDistance c b) →
      l.foldl (fun acc b => interactParticle acc b 0 m r) c = c := by
    intro l
    induction l with
    | nil => intro c _; rfl
    | cons b bs2 ih =>
      intro c hc
      have h1 : interactParticle c b 0 m r = c :=
        interactParticle_zero _ _ _ _ (hc b (by simp))
      simp only [List.foldl_cons, h1]
      exact ih c fun b2 hb2 => hc b2 (by simp [hb2])
  refine key bs _ fun b hb => ?_
  have hdist : particleDistance { a with ax := 0, ay := 0 } b = particleDistance a b := rfl
  rw [hdist]
  exact h b hb

theorem constraint_x (p : Particle) (r w h : ℝ) :
    (constraint p r w h).x =
      if p.x < r then r else if p.x > w - r then w - r else p.x := by
  simp only [constraint]
  split_ifs <;> rfl

theorem constraint_vx (p : Particle) (r w h : ℝ) :
    (constraint p r w h).vx =
      if p.x < r then p.vx * -1 else if p.x > w - r then p.vx * -1 else p.vx := by
  simp only [constraint]
  split_ifs <;> rfl

theorem constraint_y (p : Particle) (r w h : ℝ) :
    (constraint p r w h).y =
      if p.y < r then r else if p.y > h - r then h - r else p.y := by
  simp only [constraint]
  split_ifs <;> rfl

theorem constraint_vy (p : Particle) (r w h : ℝ) :
    (constraint p r w h).vy =
      if p.y < r then p.vy * -1 else if p.y > h - r then p.vy * -1 else p.vy := by
  simp only [constraint]
  split_ifs <;> rfl

/-- Claim C8: the boundary constraint leaves a particle exactly at `x = r`
(with the right wall no nearer than `r`) unchanged in `x` and `vx`; clamps
`x < r` to `x = r` negating `vx`; clamps `x > width - r` (when `r ≤ x`) to
`x = width - r` negating `vx`; acts symmetrically on `y` against `r` and
`height - r`; and only ever flips the sign of a velocity component, never
its magnitude. -/
theorem constraint_reflects (p : Particle) (r width height : ℝ) :
    ((p.x = r → p.x ≤ width - r →
        (constraint p r width height).x = p.x ∧ (constraint p r width height).vx = p.vx) ∧
      (p.x < r →
        (constraint p r width height).x = r ∧ (constraint p r width height).vx = -p.vx) ∧
      (r ≤ p.x → width - r < p.x →
        (constraint p r width height).x = width - r ∧
          (constraint p r width height).vx = -p.vx)) ∧
    ((p.y = r → p.y ≤ height - r →
        (constraint p r width height).y = p.y ∧ (constraint p r width height).vy = p.vy) ∧
      (p.y < r →
        (constraint p r width height).y = r ∧ (constraint p r width height).vy = -p.vy) ∧
      (r ≤ p.y → height - r < p.y →
        (constraint p r width height).y = height - r ∧
          (constraint p r width height).vy = -p.vy)) ∧
    |(constraint p r width height).vx| = |p.vx| ∧
    |(constraint p r width height).vy| = |p.vy| := by
  refine ⟨⟨?_, ?_, ?_⟩, ⟨?_, ?_, ?_⟩, ?_, ?_⟩
  · intro h1 h2
    have hnx : ¬ (p.x < r) := by linarith
    have hnw : ¬ (p.x > width - r) := by linarith
    rw [constraint_x, constraint_vx, if_neg hnx, if_neg hnw, if_neg hnx, if_neg hnw]
    exact ⟨rfl, rfl⟩
  · intro h1
    rw [constraint_x, constraint_vx, if_pos h1, if_pos h1]
    exact ⟨rfl, mul_neg_one p.vx⟩
  · intro h1 h2
    have hnx : ¬ (p.x < r) := by linarith
    rw [constraint_x, constraint_vx, if_neg hnx, if_pos h2, if_neg hnx, if_pos h2]
    exact ⟨rfl, mul_neg_one p.vx⟩
  · intro h1 h2
    have hny : ¬ (p.y < r) := by linarith
    have hnh : ¬ (p.y > height - r) := by linarith
    rw [constraint_y, constraint_vy, if_neg hny, if_neg hnh, if_neg hny, if_neg hnh]
    exact ⟨rfl, rfl⟩
  · intro h1
    rw [constraint_y, constraint_vy, if_pos h1, if_pos h1]
    exact ⟨rfl, mul_neg_one p.vy⟩
  · intro h1 h2
    have hny : ¬ (p.y < r) := by linarith
    rw [constraint_y, constraint_vy, if_neg hny, if_pos h2, if_neg hny, if_pos h2]
    exact ⟨rfl, mul_neg_one p.vy⟩
  · rw [constraint_vx]
    split_ifs <;> simp [mul_neg_one, abs_neg]
  · rw [constraint_vy]
    split_ifs <;> simp [mul_neg_one, abs_neg]

/-- Concrete check of `constraint_reflects`: a particle exactly on the left
wall is untouched, one past the left wall is clamped with `vx` flipped, and
one past the right wall is clamped with `vx` flipped; same for `y`. -/
theorem constraint_reflects_witness :
    ((constraint ⟨5, 5, 2, 3, 0, 0⟩ 5 100 200).x = 5 ∧
      (constraint ⟨5, 5, 2, 3, 0, 0⟩ 5 100 200).vx = 2) ∧
    ((constraint ⟨5, 5, 2, 3, 0, 0⟩ 5 100 200).y = 5 ∧
      (constraint ⟨5, 5, 2, 3, 0, 0⟩ 5 100 200).vy = 3) ∧
    ((constraint ⟨1, 2, 2, 3, 0, 0⟩ 5 100 200).x = 5 ∧
      (constraint ⟨1, 2, 2, 3, 0, 0⟩ 5 100 200).vx = -2) ∧
    ((constraint ⟨1, 2, 2, 3, 0, 0⟩ 5 100 200).y = 5 ∧
      (constraint ⟨1, 2, 2, 3, 0, 0⟩ 5 100 200).vy = -3) ∧
    ((constraint ⟨99, 199, 2, 3, 0, 0⟩ 5 100 200).x = 100 - 5 ∧
      (constraint ⟨99, 199, 2, 3, 0, 0⟩ 5 100 200).vx = -2) ∧
    ((constraint ⟨99, 199, 2, 3, 0, 0⟩ 5 100 200).y = 200 - 5 ∧
      (constraint ⟨99, 199, 2, 3, 0, 0⟩ 5 100 200).vy = -3) := by
  refine ⟨?_, ?_, ?_, ?_, ?_, ?_⟩
  · exact (constraint_reflects ⟨5, 5, 2, 3, 0, 0⟩ 5 100 200).1.1 rfl
      (show (5 : ℝ) ≤ 100 - 5 by norm_num)
  · exact (constraint_reflects ⟨5, 5, 2, 3, 0, 0⟩ 5 100 200).2.1.1 rfl
      (show (5 : ℝ) ≤ 200 - 5 by norm_num)
  · exact (constraint_reflects ⟨1, 2, 2, 3, 0, 0⟩ 5 100 200).1.2.1
      (show (1 : ℝ) < 5 by norm_num)
  · exact (constraint_reflects ⟨1, 2, 2, 3, 0, 0⟩ 5 100 200).2.1.2.1
      (show (2 : ℝ) < 5 by norm_num)
  · exact (constraint_reflects ⟨99, 199, 2, 3, 0, 0⟩ 5 100 200).1.2.2
      (show (5 : ℝ) ≤ 99 by norm_num) (show (100 : ℝ) - 5 < 99 by norm_num)
  · exact (constraint_reflects ⟨99, 199, 2, 3, 0, 0⟩ 5 100 200).2.1.2.2
      (show (5 : ℝ) ≤ 199 by norm_num) (show (200 : ℝ) - 5 < 199 by norm_num)

/-- Claim C9: removing the group at index 1 from a three-group registry
leaves groups 0 and 2 with 2-length force/range tables in which the entry
formerly at index 2 is now at index 1 and the entry formerly at index 0 is
unchanged at index 0. -/
theorem removeGroup_three_groups :
    removeGroup [c9g0, c9g1, c9g2] 1 =
      [⟨[], 0, [1, 3], [10, 30], 4, true⟩, ⟨[], 0, [7, 9], [70, 90], 6, true⟩] := rfl

/-- Concrete check of `interactParticle_hardcore`: two coincident particles
are at computed distance `2⁻²⁶ + 2⁻⁵² < 1`, and the kernel applies the
hard-core term (here a zero vector since `dx = dy = 0`) for `f = 9`. -/
theorem interactParticle_hardcore_witness :
    particleDistance ⟨3, 4, 0, 0, 1, 2⟩ ⟨3, 4, 5, 6, 7, 8⟩ < 1 ∧
    interactParticle ⟨3, 4, 0, 0, 1, 2⟩ ⟨3, 4, 5, 6, 7, 8⟩ 9 50 1 = ⟨3, 4, 0, 0, 1, 2⟩ := by
  have hd : particleDistance ⟨3, 4, 0, 0, 1, 2⟩ ⟨3, 4, 5, 6, 7, 8⟩ = 1 / 2 ^ 26 + 1 / 2 ^ 52 :=
    particleDistance_coincident _ _ rfl rfl
  have hlt : particleDistance ⟨3, 4, 0, 0, 1, 2⟩ ⟨3, 4, 5, 6, 7, 8⟩ < 1 := by
    rw [hd]; norm_num
  refine ⟨hlt, ?_⟩
  rw [interactParticle_hardcore _ _ 9 50 1 hlt]
  simp only [Particle.mk.injEq]
  norm_num

/-- Concrete check of `interactParticle_in_range`: with `particleRadius = 0`
the distance bound holds trivially, and with the two particles coincident
the configured-force term contributes a zero vector. -/
theorem interactParticle_in_range_witness :
    (0 : ℝ) ≤ particleDistance ⟨3, 4, 0, 0, 1, 2⟩ ⟨3, 4, 9, 9, 9, 9⟩ ∧
    interactParticle ⟨3, 4, 0, 0, 1, 2⟩ ⟨3, 4, 9, 9, 9, 9⟩ 7 50 0 = ⟨3, 4, 0, 0, 1, 2⟩ := by
  have h0 : (0 : ℝ) ≤ particleDistance ⟨3, 4, 0, 0, 1, 2⟩ ⟨3, 4, 9, 9, 9, 9⟩ :=
    le_of_lt (particleDistance_pos _ _)
  have hd : particleDistance ⟨3, 4, 0, 0, 1, 2⟩ ⟨3, 4, 9, 9, 9, 9⟩ = 1 / 2 ^ 26 + 1 / 2 ^ 52 :=
    particleDistance_coincident _ _ rfl rfl
  have hlt : particleDistance ⟨3, 4, 0, 0, 1, 2⟩ ⟨3, 4, 9, 9, 9, 9⟩ < 50 := by
    rw [hd]; norm_num
  refine ⟨h0, ?_⟩
  rw [interactParticle_in_range _ _ 7 50 0 h0, if_pos hlt]
  simp only [Particle.mk.injEq]
  norm_num

/-- Concrete check of `sweepParticle_zero_force`: a single source particle
five units away is outside the hard-core radius 1, and the zero-force sweep
only resets the target's acceleration. -/
theorem sweepParticle_zero_force_witness :
    (∀ b ∈ [(⟨8, 4, 0, 0, 5, 6⟩ : Particle)],
      (1 : ℝ) ≤ particleDistance ⟨3, 4, 7, 0, 5, 6⟩ b) ∧
    sweepParticle ⟨3, 4, 7, 0, 5, 6⟩ [⟨8, 4, 0, 0, 5, 6⟩] 0 50 1 = ⟨3, 4, 7, 0, 0, 0⟩ := by
  have hb : ∀ b ∈ [(⟨8, 4, 0, 0, 5, 6⟩ : Particle)],
      (1 : ℝ) ≤ particleDistance ⟨3, 4, 7, 0, 5, 6⟩ b := by
    intro b hbm
    rw [List.mem_singleton] at hbm
    subst hbm
    apply one_le_particleDistance
    show (1 : ℝ) ≤ ((3 : ℝ) - 8) ^ 2 + ((4 : ℝ) - 4) ^ 2
    norm_num
  exact ⟨hb, by rw [sweepParticle_zero_force _ _ 50 1 hb]⟩

theorem rangeTooSmall_eq_true_iff (cand : Group) (i : ℕ) :
    rangeTooSmall cand i = true ↔
      ∃ ri, cand.ranges.get? i = some ri ∧ ri < cand.particleRadius := by
  unfold rangeTooSmall
  cases h : cand.ranges.get? i with
  | none => simp
  | some ri => simp

theorem addGroupGo_error_iff (cand : Group) : ∀ (gs : List Group) (i0 : ℕ),
    (∃ e, addGroupGo cand i0 gs = Except.error e) ↔
      ∃ k, k < gs.length ∧ rangeTooSmall cand (i0 + k) = true := by
  intro gs
  induction gs with
  | nil =>
    intro i0
    simp [addGroupGo]
  | cons g rest ih =>
    intro i0
    by_cases hts : rangeTooSmall cand i0 = true
    · constructor
      · intro _
        exact ⟨0, by simp, by simpa using hts⟩
      · intro _
        refine ⟨(⟨cand.ranges.getD i0 0, cand.particleRadius⟩, g :: rest), ?_⟩
        simp [addGroupGo, hts]
    · have hstep : (∃ e, addGroupGo cand i0 (g :: rest) = Except.error e) ↔
          (∃ e2, addGroupGo cand (i0 + 1) rest = Except.error e2) := by
        cases hrec : addGroupGo cand (i0 + 1) rest with
        | ok rest2 => simp [addGroupGo, hts, hrec]
        | error pe =>
          obtain ⟨e2, st2⟩ := pe
          simp [addGroupGo, hts, hrec]
      rw [hstep, ih (i0 + 1)]
      constructor
      · rintro ⟨k, hk, hp⟩
        exact ⟨k + 1, by simpa using Nat.succ_lt_succ hk,
          by rwa [show i0 + (k + 1) = i0 + 1 + k by omega]⟩
      · rintro ⟨k, hk, hp⟩
        cases k with
        | zero => exact absurd (by simpa using hp) hts
        | succ k2 =>
          exact ⟨k2, by simpa using Nat.lt_of_succ_lt_succ hk,
            by rwa [show i0 + 1 + k2 = i0 + (k2 + 1) by omega]⟩

/-- Claim C4: `addGroup` raises a validation error iff some candidate range
entry at an index strictly below the pre-add group count is smaller than
the candidate's `particleRadius`.  In particular the candidate's own
self-interaction entry, at index equal to the pre-add count, is never
validated, so a candidate violating only that entry is accepted. -/
theorem addGroup_error_iff (gs : List Group) (cand : Group) :
    (∃ e, addGroup gs cand = Except.error e) ↔
      ∃ i, i < gs.length ∧
        ∃ ri, cand.ranges.get? i = some ri ∧ ri < cand.particleRadius := by
  have h1 : (∃ e, addGroup gs cand = Except.error e) ↔
      (∃ e, addGroupGo cand 0 gs = Except.error e) := by
    unfold addGroup
    cases hrec : addGroupGo cand 0 gs with
    | ok gs2 => simp
    | error e => simp
  rw [h1, addGroupGo_error_iff]
  constructor
  · rintro ⟨k, hk, hp⟩
    rw [rangeTooSmall_eq_true_iff] at hp
    exact ⟨k, hk, by simpa using hp⟩
  · rintro ⟨i, hi, ri, hget, hlt⟩
    refine ⟨i, hi, ?_⟩
    rw [rangeTooSmall_eq_true_iff]
    exact ⟨ri, by simpa using hget, hlt⟩

/-- Claim C1 (amended): `addGroup` is not all-or-nothing.  When validation
fails at index 1 of a two-group registry after passing at index 0, the
error is raised only after group 0's force and range tables have already
received the candidate's entries; group 1 and the registry membership are
untouched and the candidate is not appended. -/
theorem addGroup_partial_on_error (g0 g1 cand : Group)
    (h0 : rangeTooSmall cand 0 = false) (h1 : rangeTooSmall cand 1 = true) :
    addGroup [g0, g1] cand =
      Except.error (⟨cand.ranges.getD 1 0, cand.particleRadius⟩,
        [{ g0 with forces := g0.forces ++ [cand.forces.getD 0 0],
                   ranges := g0.ranges ++ [cand.ranges.getD 0 0] }, g1]) := by
  simp [addGroup, addGroupGo, h0, h1]

/-- Concrete check of `addGroup_partial_on_error` on the two-group registry
`[c1g0, c1g1]` and the candidate `c1cand` (radius 4, ranges `[9, 2]`). -/
theorem addGroup_partial_on_error_witness :
    rangeTooSmall c1cand 0 = false ∧ rangeTooSmall c1cand 1 = true ∧
    addGroup [c1g0, c1g1] c1cand =
      Except.error (⟨c1cand.ranges.getD 1 0, c1cand.particleRadius⟩,
        [{ c1g0 with forces := c1g0.forces ++ [c1cand.forces.getD 0 0],
                     ranges := c1g0.ranges ++ [c1cand.ranges.getD 0 0] }, c1g1]) := by
  have h0 : rangeTooSmall c1cand 0 = false := by
    norm_num [rangeTooSmall, c1cand]
  have h1 : rangeTooSmall c1cand 1 = true := by
    norm_num [rangeTooSmall, c1cand]
  exact ⟨h0, h1, addGroup_partial_on_error c1g0 c1g1 c1cand h0 h1⟩

/-- Counterexample to claim C1: on the registry `[c1g0, c1g1]` the failing
`addGroup` of `c1cand` raises its validation error only after extending
group 0's tables, so the registry state left behind differs from the
original one. -/
theorem addGroup_not_allOrNothing :
    ∃ e st, addGroup [c1g0, c1g1] c1cand = Except.error (e, st) ∧ st ≠ [c1g0, c1g1] := by
  refine ⟨⟨2, 4⟩, [⟨[], 0, [3, 11], [6, 9], 1, true⟩, c1g1], ?_, ?_⟩
  · norm_num [addGroup, addGroupGo, rangeTooSmall, c1g0, c1g1, c1cand]
  · intro h
    simp [c1g0] at h

theorem addGroupGo_ok_lengths (cand : Group) : ∀ (gs : List Group) (i0 : ℕ)
    (gs2 : List Group), addGroupGo cand i0 gs = Except.ok gs2 →
      gs2.length = gs.length ∧
      ∀ g2 ∈ gs2, ∃ g ∈ gs, g2.forces.length = g.forces.length + 1 ∧
        g2.ranges.length = g.ranges.length + 1 := by
  intro gs
  induction gs with
  | nil =>
    intro i0 gs2 h
    simp only [addGroupGo, Except.ok.injEq] at h
    subst h
    simp
  | cons g rest ih =>
    intro i0 gs2 h
    by_cases hts : rangeTooSmall cand i0 = true
    · simp [addGroupGo, hts] at h
    · cases hrec : addGroupGo cand (i0 + 1) rest with
      | error pe =>
        obtain ⟨e2, st2⟩ := pe
        simp [addGroupGo, hts, hrec] at h
      | ok rest2 =>
        simp only [addGroupGo, hts, Bool.false_eq_true, if_false, hrec,
          Except.ok.injEq] at h
        obtain ⟨hl, hall⟩ := ih (i0 + 1) rest2 hrec
        subst h
        constructor
        · simp [hl]
        · intro g2 hg2
          rcases List.mem_cons.mp hg2 with h1 | h2
          · subst h1
            exact ⟨g, by simp, by simp, by simp⟩
          · obtain ⟨g3, hg3, hf, hr⟩ := hall g2 h2
            exact ⟨g3, by simp [hg3], hf, hr⟩

/-- Claim C5 (amended): the table-alignment invariant is preserved by
`removeGroup` at any valid index, and by an `addGroup` call that returns
successfully (given the candidate's own tables are one longer than the
pre-add registry).  A failing `addGroup`, however, can break alignment —
see the counterexample. -/
theorem tables_aligned_preserved (gs : List Group) (cand : Group) (gs2 : List Group)
    (i : ℕ) :
    (alignedTables gs → cand.forces.length = gs.length + 1 →
      cand.ranges.length = gs.length + 1 → addGroup gs cand = Except.ok gs2 →
      alignedTables gs2) ∧
    (alignedTables gs → i < gs.length → alignedTables (removeGroup gs i)) := by
  constructor
  · intro hal hcf hcr hok
    unfold addGroup at hok
    cases hrec : addGroupGo cand 0 gs with
    | error e => rw [hrec] at hok; cases hok
    | ok gs3 =>
      rw [hrec] at hok
      simp only [Except.ok.injEq] at hok
      obtain ⟨hl, hall⟩ := addGroupGo_ok_lengths cand gs 0 gs3 hrec
      subst hok
      have hlen : (gs3 ++ [cand]).length = gs.length + 1 := by simp [hl]
      intro g2 hg2
      rcases List.mem_append.mp hg2 with h1 | h2
      · obtain ⟨g, hg, hf, hr⟩ := hall g2 h1
        obtain ⟨hgf, hgr⟩ := hal g hg
        rw [hlen, hf, hr, hgf, hgr]
        exact ⟨rfl, rfl⟩
      · rw [List.mem_singleton] at h2
        subst h2
        rw [hlen, hcf, hcr]
        exact ⟨rfl, rfl⟩
  · intro hal hi
    intro g2 hg2
    unfold removeGroup at hg2 ⊢
    obtain ⟨g, hg, rfl⟩ := List.mem_map.mp hg2
    have hgm : g ∈ gs := List.eraseIdx_subset gs i hg
    obtain ⟨hf, hr⟩ := hal g hgm
    have hlen : ((gs.eraseIdx i).map fun g =>
        { g with ranges := g.ranges.eraseIdx i,
                 forces := g.forces.eraseIdx i }).length = gs.length - 1 := by
      simp [List.length_eraseIdx_of_lt hi]
    rw [hlen]
    constructor
    · show (g.forces.eraseIdx i).length = gs.length - 1
      rw [List.length_eraseIdx_of_lt (by rw [hf]; exact hi), hf]
    · show (g.ranges.eraseIdx i).length = gs.length - 1
      rw [List.length_eraseIdx_of_lt (by rw [hr]; exact hi), hr]

/-- Concrete check of `tables_aligned_preserved`: a successful `addGroup`
onto a one-group registry yields an aligned two-group registry, and
removing index 0 from an aligned two-group registry yields an aligned
one-group registry. -/
theorem tables_aligned_preserved_witness :
    alignedTables [c5w0] ∧ c5wcand.forces.length = 2 ∧ c5wcand.ranges.length = 2 ∧
    addGroup [c5w0] c5wcand = Except.ok [⟨[], 0, [1, 7], [2, 5], 1, true⟩, c5wcand] ∧
    alignedTables [⟨[], 0, [1, 7], [2, 5], 1, true⟩, c5wcand] ∧
    0 < ([c5g0, c5g1] : List Group).length ∧
    alignedTables (removeGroup [c5g0, c5g1] 0) := by
  have hal1 : alignedTables [c5w0] := by
    intro g hg
    rw [List.mem_singleton] at hg
    subst hg
    simp [c5w0]
  have hok : addGroup [c5w0] c5wcand =
      Except.ok [⟨[], 0, [1, 7], [2, 5], 1, true⟩, c5wcand] := by
    norm_num [addGroup, addGroupGo, rangeTooSmall, c5w0, c5wcand]
  have hal2 : alignedTables [c5g0, c5g1] := by
    intro g hg
    rcases List.mem_cons.mp hg with rfl | hg2
    · simp [c5g0]
    · rw [List.mem_singleton] at hg2
      subst hg2
      simp [c5g1]
  refine ⟨hal1, rfl, rfl, hok, ?_, by norm_num, ?_⟩
  · exact (tables_aligned_preserved [c5w0] c5wcand
      [⟨[], 0, [1, 7], [2, 5], 1, true⟩, c5wcand] 0).1 hal1 rfl rfl hok
  · exact (tables_aligned_preserved [c5g0, c5g1] c5wcand [] 0).2 hal2 (by norm_num)

/-- Counterexample to claim C5: an aligned two-group registry and a
candidate whose own tables have the correct new length 3, for which
`addGroup` fails at index 1 and leaves group 0 with 3-length tables inside
a two-group registry — alignment is broken by the failing add. -/
theorem alignment_broken_on_error :
    alignedTables [c5g0, c5g1] ∧ c5cand.forces.length = 3 ∧ c5cand.ranges.length = 3 ∧
    ∃ e st, addGroup [c5g0, c5g1] c5cand = Except.error (e, st) ∧ ¬ alignedTables st := by
  refine ⟨?_, rfl, rfl, ⟨1, 3⟩, [⟨[], 0, [1, 2, 10], [4, 5, 5], 1, true⟩, c5g1], ?_, ?_⟩
  · intro g hg
    rcases List.mem_cons.mp hg with rfl | hg2
    · simp [c5g0]
    · rw [List.mem_singleton] at hg2
      subst hg2
      simp [c5g1]
  · norm_num [addGroup, addGroupGo, rangeTooSmall, c5g0, c5g1, c5cand]
  · intro hal
    have h3 := (hal ⟨[], 0, [1, 2, 10], [4, 5, 5], 1, true⟩ (by simp)).1
    simp at h3

theorem foldl_add_of_eq {α : Type} (F : ℕ → α → ℕ) (g : α → ℕ)
    (hF : ∀ k x, F k x = k + g x) : ∀ (l : List α) (k : ℕ),
    l.foldl F k = k + (l.map g).sum := by
  intro l
  induction l with
  | nil => intro k; simp
  | cons b bs ih =>
    intro k
    simp only [List.foldl_cons, List.map_cons, List.sum_cons, hF]
    rw [ih]
    omega

/-- Claim C10: `computationsPerFrame` equals the sum, over all ordered
group pairs `(i, j)` such that group `i` is running and group `i`'s force
entry for group `j` is non-zero, of the product of group `i`'s and group
`j`'s particle counts. -/
theorem computationsPerFrame_eq (gs : List Group) :
    computationsPerFrame gs = computationsPerFrameSpec gs := by
  unfold computationsPerFrame computationsPerFrameSpec
  have hbody : ∀ (i k2 j : ℕ),
      (match gs.get? i, gs.get? j with
       | some gi, some gj =>
         if ¬ gi.isRunning ∨ gi.forces.get? j = some 0 then k2
         else k2 + gi.items.length * gj.items.length
       | _, _ => k2) = k2 + pairCost gs i j := by
    intro i k2 j
    unfold pairCost
    cases hgi : gs.get? i with
    | none => simp
    | some gi =>
      cases hgj : gs.get? j with
      | none => simp
      | some gj =>
        by_cases h1 : gi.isRunning <;> simp [h1] <;> split_ifs <;> simp
  rw [foldl_add_of_eq _ (fun i => ((List.range gs.length).map fun j => pairCost gs i j).sum)
    (fun k i => foldl_add_of_eq _ _ (fun k2 j => hbody i k2 j) (List.range gs.length) k)
    (List.range gs.length) 0]
  simp

theorem get?_append_len {α : Type} (l1 : List α) (b : α) (l2 : List α) :
    (l1 ++ b :: l2).get? l1.length = some b := by
  induction l1 with
  | nil => rfl
  | cons a l ih => simpa using ih

theorem set_append_len {α : Type} (l1 : List α) (b c : α) (l2 : List α) :
    (l1 ++ b :: l2).set l1.length c = l1 ++ c :: l2 := by
  induction l1 with
  | nil => rfl
  | cons a l ih => simpa using ih

theorem foldl_set_map_aux {α : Type} (f : α → α) (F : List α → ℕ → List α)
    (hFs : ∀ cur k a, cur.get? k = some a → F cur k = cur.set k (f a)) :
    ∀ (suf pre : List α),
      (List.range' pre.length suf.length).foldl F (pre ++ suf) = pre ++ suf.map f := by
  intro suf
  induction suf with
  | nil => intro pre; simp
  | cons b suf2 ih =>
    intro pre
    rw [List.length_cons, List.range'_succ, List.foldl_cons]
    have hF : F (pre ++ b :: suf2) pre.length = pre ++ f b :: suf2 := by
      rw [hFs _ _ b (get?_append_len pre b suf2)]
      exact set_append_len pre b (f b) suf2
    rw [hF]
    have hstep := ih (pre ++ [f b])
    rw [List.length_append, List.length_singleton] at hstep
    have h2 : pre ++ f b :: suf2 = (pre ++ [f b]) ++ suf2 := by simp
    rw [h2, hstep]
    simp

/-- Claim C2 (amended): every `interactGroup` call performs the
reset-accumulate-integrate cycle exactly once per target particle: for a
source group distinct from the target, the call maps each target particle
to the result of resetting its acceleration, sweeping the kernel over this
single source group's particles, and immediately integrating and
constraining it.  Since `step` makes one such call per interacting
`(target, source)` pair, a target particle undergoes one cycle per
interacting source group per frame, not exactly one per frame. -/
theorem interactGroup_one_cycle_per_call (items srcItems : List Particle)
    (f m r dt width height damp : ℝ) :
    interactGroup items srcItems false f m r dt width height damp =
      items.map fun a =>
        integrate (sweepParticle a srcItems f m r) dt damp r width height := by
  unfold interactGroup
  have h0 := foldl_set_map_aux
    (fun a => integrate (sweepParticle a srcItems f m r) dt damp r width height)
    (interactStep f m r dt width height damp false srcItems)
    (fun cur k a hget => by
      have hget2 : cur[k]? = some a := by
        rw [← List.get?_eq_getElem?]
        exact hget
      simp [interactStep, hget2]) items []
  simp only [List.length_nil, List.nil_append] at h0
  rw [← List.range_eq_range'] at h0
  exact h0

theorem constraint_inside (p : Particle) (r w h : ℝ) (h1 : r ≤ p.x) (h2 : p.x ≤ w - r)
    (h3 : r ≤ p.y) (h4 : p.y ≤ h - r) : constraint p r w h = p := by
  simp only [constraint]
  rw [if_neg (not_lt.mpr h1), if_neg (not_lt.mpr h2), if_neg (not_lt.mpr h3),
    if_neg (not_lt.mpr h4)]

theorem integrate_eval (a : Particle) (dt damp r w h : ℝ)
    (h1 : r ≤ a.x + (a.vx + dt * a.ax) * damp)
    (h2 : a.x + (a.vx + dt * a.ax) * damp ≤ w - r)
    (h3 : r ≤ a.y + (a.vy + dt * a.ay) * damp)
    (h4 : a.y + (a.vy + dt * a.ay) * damp ≤ h - r) :
    integrate a dt damp r w h =
      ⟨a.x + (a.vx + dt * a.ax) * damp, a.y + (a.vy + dt * a.ay) * damp,
        (a.vx + dt * a.ax) * damp, (a.vy + dt * a.ay) * damp, a.ax, a.ay⟩ := by
  simp only [integrate]
  exact constraint_inside _ _ _ _ h1 h2 h3 h4

/-- Counterexample to claim C3: with a single running group whose only
force entry (toward itself) is 0, `step` skips the pair and leaves the
particle untouched, while the variant that runs the interaction with
`f = 0` still dampens the velocity and moves the particle. -/
theorem step_skip_not_zero_force_equiv :
    step [c3G] 1 100 100 (1 / 2) ≠ stepNoSkip [c3G] 1 100 100 (1 / 2) := by
  have hs : step [c3G] 1 100 100 (1 / 2) = [c3G] := by
    unfold step stepOuter stepInner
    simp only [c3G, List.length_cons, List.length_nil, zero_add, List.range_succ,
      List.range_zero, List.nil_append, List.foldl_cons, List.foldl_nil,
      List.get?_cons_zero, eq_self_iff_true, if_true]
  have hsw : sweepParticle ⟨10, 10, 1, 0, 0, 0⟩ [(⟨10, 10, 1, 0, 0, 0⟩ : Particle)] 0 50 1 =
      ⟨10, 10, 1, 0, 0, 0⟩ := by
    unfold sweepParticle
    simp only [List.foldl_cons, List.foldl_nil]
    exact interactParticle_coincident _ _ _ _ _ rfl rfl
  have hint : integrate ⟨10, 10, 1, 0, 0, 0⟩ 1 (1 / 2) 1 100 100 =
      ⟨10 + (1 + 1 * 0) * (1 / 2), 10 + (0 + 1 * 0) * (1 / 2),
        (1 + 1 * 0) * (1 / 2), (0 + 1 * 0) * (1 / 2), 0, 0⟩ :=
    integrate_eval _ _ _ _ _ _ (by norm_num) (by norm_num) (by norm_num) (by norm_num)
  have hig : interactGroup [(⟨10, 10, 1, 0, 0, 0⟩ : Particle)]
      [(⟨10, 10, 1, 0, 0, 0⟩ : Particle)] true 0 50 1 1 100 100 (1 / 2) =
      [(⟨10 + (1 + 1 * 0) * (1 / 2), 10 + (0 + 1 * 0) * (1 / 2), (1 + 1 * 0) * (1 / 2),
        (0 + 1 * 0) * (1 / 2), 0, 0⟩ : Particle)] := by
    unfold interactGroup interactStep
    simp only [List.length_cons, List.length_nil, zero_add, List.range_succ,
      List.range_zero, List.nil_append, List.foldl_cons, List.foldl_nil,
      List.get?_cons_zero, eq_self_iff_true, if_true, List.set_cons_zero]
    rw [hsw, hint]
    norm_num
  have hn : stepNoSkip [c3G] 1 100 100 (1 / 2) =
      [{ c3G with items := [(⟨10 + (1 + 1 * 0) * (1 / 2), 10 + (0 + 1 * 0) * (1 / 2),
        (1 + 1 * 0) * (1 / 2), (0 + 1 * 0) * (1 / 2), 0, 0⟩ : Particle)] }] := by
    unfold stepNoSkip
    simp only [c3G, List.length_cons, List.length_nil, zero_add, List.range_succ,
      List.range_zero, List.nil_append, List.foldl_cons, List.foldl_nil,
      List.get?_cons_zero, eq_self_iff_true, if_true, beq_self_eq_true,
      List.getD_cons_zero, List.set_cons_zero]
    rw [hig]
    norm_num
  rw [hs, hn]
  intro heq
  norm_num [c3G, Group.mk.injEq, Particle.mk.injEq] at heq

/-- Counterexample to claim C2: in the registry `[c2A, c2B, c2C]` the
running target group `c2A` interacts with two source groups whose force
contributions are both zero, yet `step` dampens and integrates its particle
once per interacting pair — its velocity ends at `1/4`, halved twice in one
frame — while the claim-side variant that resets and integrates exactly
once per frame ends with velocity `1/2`. -/
theorem step_not_reset_once :
    step [c2A, c2B, c2C] 1 100 100 (1 / 2) ≠
      stepResetOnce [c2A, c2B, c2C] 1 100 100 (1 / 2) := by
  have hg1 : interactParticle ⟨10, 10, 1, 0, 0, 0⟩ ⟨10, 10, 0, 0, 0, 0⟩ 1 50 1 =
      ⟨10, 10, 1, 0, 0, 0⟩ := interactParticle_coincident _ _ _ _ _ rfl rfl
  have hd2 : (1 : ℝ) ≤ particleDistance ⟨21 / 2, 10, 1 / 2, 0, 0, 0⟩ ⟨90, 10, 0, 0, 0, 0⟩ := by
    apply one_le_particleDistance
    show (1 : ℝ) ≤ ((21 / 2 : ℝ) - 90) ^ 2 + ((10 : ℝ) - 10) ^ 2
    norm_num
  have hd3 : (1 : ℝ) ≤ particleDistance ⟨10, 10, 1, 0, 0, 0⟩ ⟨90, 10, 0, 0, 0, 0⟩ := by
    apply one_le_particleDistance
    show (1 : ℝ) ≤ ((10 : ℝ) - 90) ^ 2 + ((10 : ℝ) - 10) ^ 2
    norm_num
  have hg3 : interactParticle ⟨10, 10, 1, 0, 0, 0⟩ ⟨90, 10, 0, 0, 0, 0⟩ 1 1 1 =
      ⟨10, 10, 1, 0, 0, 0⟩ := interactParticle_outOfRange _ _ _ _ _ hd3 hd3
  have hsw1 : sweepParticle ⟨10, 10, 1, 0, 0, 0⟩ [(⟨10, 10, 0, 0, 0, 0⟩ : Particle)] 1 50 1 =
      ⟨10, 10, 1, 0, 0, 0⟩ := by
    unfold sweepParticle
    simp only [List.foldl_cons, List.foldl_nil]
    exact interactParticle_coincident _ _ _ _ _ rfl rfl
  have hsw2 : sweepParticle ⟨21 / 2, 10, 1 / 2, 0, 0, 0⟩ [(⟨90, 10, 0, 0, 0, 0⟩ : Particle)]
      1 1 1 = ⟨21 / 2, 10, 1 / 2, 0, 0, 0⟩ := by
    unfold sweepParticle
    simp only [List.foldl_cons, List.foldl_nil]
    exact interactParticle_outOfRange _ _ _ _ _ hd2 hd2
  have hi1 : integrate ⟨10, 10, 1, 0, 0, 0⟩ 1 (1 / 2) 1 100 100 =
      ⟨21 / 2, 10, 1 / 2, 0, 0, 0⟩ := by
    rw [integrate_eval _ _ _ _ _ _ (by norm_num) (by norm_num) (by norm_num) (by norm_num)]
    norm_num [Particle.mk.injEq]
  have hi2 : integrate ⟨21 / 2, 10, 1 / 2, 0, 0, 0⟩ 1 (1 / 2) 1 100 100 =
      ⟨43 / 4, 10, 1 / 4, 0, 0, 0⟩ := by
    rw [integrate_eval _ _ _ _ _ _ (by norm_num) (by norm_num) (by norm_num) (by norm_num)]
    norm_num [Particle.mk.injEq]
  have hig1 : interactGroup [(⟨10, 10, 1, 0, 0, 0⟩ : Particle)]
      [(⟨10, 10, 0, 0, 0, 0⟩ : Particle)] false 1 50 1 1 100 100 (1 / 2) =
      [(⟨21 / 2, 10, 1 / 2, 0, 0, 0⟩ : Particle)] := by
    unfold interactGroup interactStep
    simp only [List.length_cons, List.length_nil, zero_add, List.range_succ, List.range_zero,
      List.nil_append, List.foldl_cons, List.foldl_nil, List.get?_cons_zero,
      Bool.false_eq_true, if_false, List.set_cons_zero, hsw1, hi1]
  have hig2 : interactGroup [(⟨21 / 2, 10, 1 / 2, 0, 0, 0⟩ : Particle)]
      [(⟨90, 10, 0, 0, 0, 0⟩ : Particle)] false 1 1 1 1 100 100 (1 / 2) =
      [(⟨43 / 4, 10, 1 / 4, 0, 0, 0⟩ : Particle)] := by
    unfold interactGroup interactStep
    simp only [List.length_cons, List.length_nil, zero_add, List.range_succ, List.range_zero,
      List.nil_append, List.foldl_cons, List.foldl_nil, List.get?_cons_zero,
      Bool.false_eq_true, if_false, List.set_cons_zero, hsw2, hi2]
  have hne1 : ¬ (c2A.forces.get? 1 = some (0 : ℝ)) := by
    rw [show c2A.forces.get? 1 = some (1 : ℝ) from rfl]
    norm_num
  have hne2 : ¬ (c2A1.forces.get? 2 = some (0 : ℝ)) := by
    rw [show c2A1.forces.get? 2 = some (1 : ℝ) from rfl]
    norm_num
  have hne3 : ¬ (c2A.forces.get? 2 = some (0 : ℝ)) := by
    rw [show c2A.forces.get? 2 = some (1 : ℝ) from rfl]
    norm_num
  have hstep0 : stepInner 1 100 100 (1 / 2) 0 [c2A, c2B, c2C] 0 = [c2A, c2B, c2C] := by
    unfold stepInner
    simp only [show ([c2A, c2B, c2C] : List Group).get? 0 = some c2A from rfl,
      show c2A.forces.get? 0 = some (0 : ℝ) from rfl, eq_self_iff_true, if_true]
  have hstep1 : stepInner 1 100 100 (1 / 2) 0 [c2A, c2B, c2C] 1 = [c2A1, c2B, c2C] := by
    unfold stepInner
    simp only [show ([c2A, c2B, c2C] : List Group).get? 0 = some c2A from rfl,
      show ([c2A, c2B, c2C] : List Group).get? 1 = some c2B from rfl,
      hne1, if_false,
      show c2A.items = [(⟨10, 10, 1, 0, 0, 0⟩ : Particle)] from rfl,
      show c2B.items = [(⟨10, 10, 0, 0, 0, 0⟩ : Particle)] from rfl,
      show ((0 : ℕ) == 1) = false from rfl,
      show c2A.forces.getD 1 0 = (1 : ℝ) from rfl,
      show c2A.ranges.getD 1 0 = (50 : ℝ) from rfl,
      show c2A.particleRadius = (1 : ℝ) from rfl,
      hig1, List.set_cons_zero]
    rfl
  have hstep2 : stepInner 1 100 100 (1 / 2) 0 [c2A1, c2B, c2C] 2 = [c2A2, c2B, c2C] := by
    unfold stepInner
    simp only [show ([c2A1, c2B, c2C] : List Group).get? 0 = some c2A1 from rfl,
      show ([c2A1, c2B, c2C] : List Group).get? 2 = some c2C from rfl,
      hne2, if_false,
      show c2A1.items = [(⟨21 / 2, 10, 1 / 2, 0, 0, 0⟩ : Particle)] from rfl,
      show c2C.items = [(⟨90, 10, 0, 0, 0, 0⟩ : Particle)] from rfl,
      show ((0 : ℕ) == 2) = false from rfl,
      show c2A1.forces.getD 2 0 = (1 : ℝ) from rfl,
      show c2A1.ranges.getD 2 0 = (1 : ℝ) from rfl,
      show c2A1.particleRadius = (1 : ℝ) from rfl,
      hig2, List.set_cons_zero]
    rfl
  have houter0 : stepOuter 1 100 100 (1 / 2) ([c2A, c2B, c2C] : List Group).length
      [c2A, c2B, c2C] 0 = [c2A2, c2B, c2C] := by
    unfold stepOuter
    simp only [show ([c2A, c2B, c2C] : List Group).get? 0 = some c2A from rfl,
      show c2A.isRunning = true from rfl, eq_self_iff_true, if_true,
      show List.range ([c2A, c2B, c2C] : List Group).length = [0, 1, 2] from rfl,
      List.foldl_cons, List.foldl_nil, hstep0, hstep1, hstep2]
  have houter1 : stepOuter 1 100 100 (1 / 2) ([c2A, c2B, c2C] : List Group).length
      [c2A2, c2B, c2C] 1 = [c2A2, c2B, c2C] := by
    unfold stepOuter
    simp only [show ([c2A2, c2B, c2C] : List Group).get? 1 = some c2B from rfl,
      show c2B.isRunning = false from rfl, Bool.false_eq_true, if_false]
  have houter2 : stepOuter 1 100 100 (1 / 2) ([c2A, c2B, c2C] : List Group).length
      [c2A2, c2B, c2C] 2 = [c2A2, c2B, c2C] := by
    unfold stepOuter
    simp only [show ([c2A2, c2B, c2C] : List Group).get? 2 = some c2C from rfl,
      show c2C.isRunning = false from rfl, Bool.false_eq_true, if_false]
  have hstepeval : step [c2A, c2B, c2C] 1 100 100 (1 / 2) = [c2A2, c2B, c2C] := by
    unfold step
    simp only [show List.range ([c2A, c2B, c2C] : List Group).length = [0, 1, 2] from rfl,
      List.foldl_cons, List.foldl_nil, houter0, houter1, houter2]
  have hgather : gatherAll [c2A, c2B, c2C] c2A ⟨10, 10, 1, 0, 0, 0⟩ =
      ⟨10, 10, 1, 0, 0, 0⟩ := by
    unfold gatherAll
    simp only [show List.range ([c2A, c2B, c2C] : List Group).length = [0, 1, 2] from rfl,
      List.foldl_cons, List.foldl_nil,
      show ([c2A, c2B, c2C] : List Group).get? 0 = some c2A from rfl,
      show ([c2A, c2B, c2C] : List Group).get? 1 = some c2B from rfl,
      show ([c2A, c2B, c2C] : List Group).get? 2 = some c2C from rfl,
      show ({(⟨10, 10, 1, 0, 0, 0⟩ : Particle) with ax := 0, ay := 0} : Particle) =
        (⟨10, 10, 1, 0, 0, 0⟩ : Particle) from rfl,
      show c2A.forces.get? 0 = some (0 : ℝ) from rfl, eq_self_iff_true, if_true,
      hne1, hne3, if_false,
      show c2B.items = [(⟨10, 10, 0, 0, 0, 0⟩ : Particle)] from rfl,
      show c2C.items = [(⟨90, 10, 0, 0, 0, 0⟩ : Particle)] from rfl,
      show c2A.forces.getD 1 0 = (1 : ℝ) from rfl,
      show c2A.ranges.getD 1 0 = (50 : ℝ) from rfl,
      show c2A.forces.getD 2 0 = (1 : ℝ) from rfl,
      show c2A.ranges.getD 2 0 = (1 : ℝ) from rfl,
      show c2A.particleRadius = (1 : ℝ) from rfl,
      hg1, hg3]
  have hreset : stepResetOnce [c2A, c2B, c2C] 1 100 100 (1 / 2) = [c2A1, c2B, c2C] := by
    unfold stepResetOnce
    simp only [List.map_cons, List.map_nil,
      show c2A.isRunning = true from rfl, show c2B.isRunning = false from rfl,
      show c2C.isRunning = false from rfl, eq_self_iff_true, if_true,
      Bool.false_eq_true, if_false,
      show c2A.items = [(⟨10, 10, 1, 0, 0, 0⟩ : Particle)] from rfl,
      show c2A.particleRadius = (1 : ℝ) from rfl, hgather, hi1]
    rfl
  rw [hstepeval, hreset]
  intro heq
  norm_num [c2A1, c2A2, Group.mk.injEq, Particle.mk.injEq] at heq

end ParticleGroups
